import Mathlib

/-!
# Verification of the "Immagini Casuali" SPA backend

Shallow embedding of the relevant parts of `src/webserver/src/index.js` and
`src/webserver/src/db.js`: the JavaScript value fragment the validator
inspects, the validator `validaImmagine`, the router helper `reqMatch`, the
body-parsing helper `getBody`, the POST /images dispatch, and the six storage
operations of `db.js` with explicit exception propagation and a trace of
connection opens/closes.
-/

namespace SpaImages

/-! ## JavaScript value model

Only the value shapes the validator and the db parameter lists can observe are
modelled: `undefined`, `null`, booleans, numbers (rationals plus `NaN`;
the code never produces infinities on the inspected paths), strings, and a
generic object marker. -/

/-- A JavaScript number: `NaN` or a (finite) rational value. -/
inductive JSNum where
  | nan : JSNum
  | val (q : ℚ) : JSNum
deriving DecidableEq, Repr

/-- A JavaScript value, restricted to the shapes the embedded code inspects. -/
inductive JSValue where
  | undef : JSValue
  | null : JSValue
  | bool (b : Bool) : JSValue
  | num (n : JSNum) : JSValue
  | str (s : String) : JSValue
  | obj : JSValue
deriving DecidableEq, Repr

/-- JavaScript truthiness (`!x` is the negation of this). -/
def truthy : JSValue → Bool
  | .undef => false
  | .null => false
  | .bool b => b
  | .num .nan => false
  | .num (.val q) => q ≠ 0
  | .str s => s ≠ ""
  | .obj => true

/-- `typeof x === 'string'`. -/
def isString : JSValue → Bool
  | .str _ => true
  | _ => false

/-- The underlying string of a string value (only used under an `isString`
guard, mirroring the JS code's flow). -/
def jsStr : JSValue → String
  | .str s => s
  | _ => ""

/-- Value of a digit character ('0'-'9'). -/
def digitVal (c : Char) : ℕ := c.toNat - 48

def isDigit (c : Char) : Bool := 48 ≤ c.toNat && c.toNat ≤ 57

/-- Value of a digit list read as a decimal integer. -/
def digitsToNat (cs : List Char) : ℕ := cs.foldl (fun a c => a * 10 + digitVal c) 0

/-- Whitespace for the purposes of StringToNumber's trimming. -/
def wsChar (c : Char) : Bool := c = ' ' || c = '\t' || c = '\n' || c = '\r'

/-- Strip leading and trailing whitespace from a character list. -/
def trimChars (cs : List Char) : List Char :=
  ((cs.dropWhile wsChar).reverse.dropWhile wsChar).reverse

/-- The JS StringToNumber conversion, on the decimal fragment: optional sign,
decimal digits with an optional fraction part. Whitespace-only strings give 0.
(The exotic forms — exponents, hex, `Infinity` — are not produced anywhere in
the embedded code's tested paths and are mapped to `NaN`.) -/
def strToNum (s : String) : JSNum :=
  let cs := trimChars s.data
  match cs with
  | [] => .val 0
  | _ =>
    let (neg, rest) :=
      match cs with
      | '-' :: t => (true, t)
      | '+' :: t => (false, t)
      | t => (false, t)
    let signed : ℚ → ℚ := fun q => if neg then -q else q
    match rest.span isDigit with
    | (ds, []) =>
        if ds = [] then .nan
        else .val (signed ((digitsToNat ds : ℤ) : ℚ))
    | (ds, '.' :: fs) =>
        if fs.all isDigit = true ∧ (ds ≠ [] ∨ fs ≠ []) then
          .val (signed (mkRat (digitsToNat ds * 10 ^ fs.length + digitsToNat fs)
            (10 ^ fs.length)))
        else .nan
    | _ => .nan

/-- The JS `Number(x)` coercion on the modelled values. -/
def toNumber : JSValue → JSNum
  | .undef => .nan
  | .null => .val 0
  | .bool true => .val 1
  | .bool false => .val 0
  | .num n => n
  | .str s => strToNum s
  | .obj => .nan

/-- `Number.isInteger`. -/
def jsIsInteger : JSNum → Bool
  | .nan => false
  | .val q => q.den = 1

/-- JS `<` on numbers: false whenever an operand is `NaN`. -/
def jsLt : JSNum → JSNum → Bool
  | .val a, .val b => a < b
  | _, _ => false

/-- JS `>` on numbers: false whenever an operand is `NaN`. -/
def jsGt : JSNum → JSNum → Bool
  | .val a, .val b => b < a
  | _, _ => false

/-- JS `a || b` on the position parameter: the left value if truthy, else `b`. -/
def jsOr (a b : JSValue) : JSValue := if truthy a then a else b

/-- The payload object as the validator and db reads see it: each property
read yields `undef` when the property is absent. -/
structure Immagine where
  image_url : JSValue := .undef
  description : JSValue := .undef
  rating : JSValue := .undef
  position : JSValue := .undef
deriving DecidableEq, Repr

/-- The payload obtained from an empty object `{}`. -/
def emptyImmagine : Immagine := {}

/-! ## Validator (`validaImmagine`, index.js lines 51-82) -/

def urlRequiredMsg : String := "L'URL dell'immagine è obbligatorio."

def urlInvalidMsg : String :=
  "L'URL dell'immagine deve essere valido (http/https) o un'immagine in base64."

def ratingRequiredMsg : String := "Il voto è obbligatorio."

def ratingRangeMsg : String := "Il voto deve essere un numero intero compreso tra 1 e 5."

def descriptionMsg : String := "La descrizione non può superare i 200 caratteri."

/-- JS line terminators, which `.` in a regex does not match. -/
def isLineTerminator (c : Char) : Bool :=
  c = '\n' || c = '\r' || c = '\u2028' || c = '\u2029'

/-- `cs` begins with the prefix `ps`. -/
def listStartsWith : List Char → List Char → Bool
  | _, [] => true
  | [], _ :: _ => false
  | c :: cs, p :: ps => c = p && listStartsWith cs ps

/-- Match of the regex `^p.+` where `p` is a literal prefix: the string starts
with `p` and at least one non-line-terminator character follows. -/
def testPrefixDotPlus (p s : String) : Bool :=
  listStartsWith s.data p.data &&
    match s.data.drop p.data.length with
    | [] => false
    | c :: _ => !isLineTerminator c

/-- The regex test `/^https?:\/\/.+/.test(s)`. -/
def testHttpUrl (s : String) : Bool :=
  testPrefixDotPlus "http://" s || testPrefixDotPlus "https://" s

/-- The regex test `/^data:image\/.+/.test(s)`. -/
def testDataImageUrl (s : String) : Bool :=
  testPrefixDotPlus "data:image/" s

/-- `validaImmagine(immagine)`: sequentially pushes the applicable error
messages, mirroring the three blocks of the source. -/
def validaImmagine (immagine : Immagine) : List String :=
  let errori : List String := []
  -- URL block (lines 56-60)
  let errori :=
    if !truthy immagine.image_url || !isString immagine.image_url then
      errori ++ [urlRequiredMsg]
    else if !testHttpUrl (jsStr immagine.image_url) &&
            !testDataImageUrl (jsStr immagine.image_url) then
      errori ++ [urlInvalidMsg]
    else errori
  -- rating block (lines 64-71)
  let errori :=
    if immagine.rating = .undef ∨ immagine.rating = .null then
      errori ++ [ratingRequiredMsg]
    else
      let voto := toNumber immagine.rating
      if !jsIsInteger voto || jsLt voto (.val 1) || jsGt voto (.val 5) then
        errori ++ [ratingRangeMsg]
      else errori
  -- description block (lines 75-79)
  let errori :=
    if truthy immagine.description && isString immagine.description then
      if (jsStr immagine.description).length > 200 then errori ++ [descriptionMsg]
      else errori
    else errori
  errori

/-! Per-field error lists, the reference decomposition the spec describes
(url errors, then rating error, then description error). -/

/-- Errors the url rule contributes. -/
def urlErrors (immagine : Immagine) : List String :=
  if !truthy immagine.image_url || !isString immagine.image_url then [urlRequiredMsg]
  else if !testHttpUrl (jsStr immagine.image_url) &&
          !testDataImageUrl (jsStr immagine.image_url) then [urlInvalidMsg]
  else []

/-- Error the rating rule contributes. -/
def ratingErrors (immagine : Immagine) : List String :=
  if immagine.rating = .undef ∨ immagine.rating = .null then [ratingRequiredMsg]
  else if !jsIsInteger (toNumber immagine.rating) ||
          jsLt (toNumber immagine.rating) (.val 1) ||
          jsGt (toNumber immagine.rating) (.val 5) then [ratingRangeMsg]
  else []

/-- Error the description rule contributes. -/
def descriptionErrors (immagine : Immagine) : List String :=
  if truthy immagine.description && isString immagine.description &&
     decide ((jsStr immagine.description).length > 200) then [descriptionMsg]
  else []

/-! ## Router (`reqMatch`, index.js lines 168-195)

The `params` object is modelled as an association list written by `objSet`
(assignment: overwrite an existing key in place, else append, as a JS object
does). -/

/-- `params[k] = v` on a JS object modelled as an association list. -/
def objSet (m : List (String × String)) (k v : String) : List (String × String) :=
  if m.any (fun kv => kv.1 = k) then
    m.map (fun kv => if kv.1 = k then (k, v) else kv)
  else m ++ [(k, v)]

/-- JS `s.split('/')`. -/
def splitSlashAux : List Char → List Char → List String
  | [], acc => [String.mk acc.reverse]
  | c :: cs, acc =>
      if c = '/' then String.mk acc.reverse :: splitSlashAux cs []
      else splitSlashAux cs (c :: acc)

/-- JS `s.split('/')` on a string. -/
def jsSplitSlash (s : String) : List String := splitSlashAux s.data []

/-- JS `seg.startsWith(':')`. -/
def startsColon (s : String) : Bool :=
  match s.data with
  | ':' :: _ => true
  | _ => false

/-- JS `seg.substr(1)`. -/
def substrFrom1 (s : String) : String := String.mk (s.data.drop 1)

/-- The segment loop of `reqMatch` (lines 181-193): walks the url and template
segments in step; a `:`-segment records a binding, a mismatching literal
segment breaks out with `result = false`, keeping the bindings made so far. -/
def matchSegs : List String → List String → List (String × String) →
    Bool × List (String × String)
  | [], [], params => (true, params)
  | u :: us, p :: ps, params =>
      if startsColon p then
        matchSegs us ps (objSet params (substrFrom1 p) u)
      else if p ≠ u then (false, params)
      else matchSegs us ps params
  | _, _, params => (false, params)

/-- `reqMatch(method, path)` for a request with method `reqMethod` and url
`reqUrl`: returns the matched flag together with the `params` object as the
call leaves it. -/
def reqMatch (reqMethod reqUrl method path : String) :
    Bool × List (String × String) :=
  if reqMethod ≠ method then (false, [])
  else
    let urlSplit := jsSplitSlash reqUrl
    let pathSplit := jsSplitSlash path
    if urlSplit.length ≠ pathSplit.length then (false, [])
    else matchSegs urlSplit pathSplit []

/-- The spec's reference matching definition (§4.1), written independently of
the loop: the match succeeds when the methods agree, the segment counts agree,
and every pair of corresponding segments is compatible (template parameter, or
literal equality); the recorded bindings are those of the parameter segments
up to the first incompatible pair. -/
def routeSpecMatch (reqMethod reqUrl method path : String) :
    Bool × List (String × String) :=
  let urlSplit := jsSplitSlash reqUrl
  let pathSplit := jsSplitSlash path
  let pairs := pathSplit.zip urlSplit
  let segOk : String × String → Bool := fun pu => startsColon pu.1 || pu.1 == pu.2
  let matched := reqMethod == method && urlSplit.length == pathSplit.length &&
    pairs.all segOk
  let binds := (pairs.takeWhile segOk).foldl
    (fun m pu => if startsColon pu.1 then objSet m (substrFrom1 pu.1) pu.2 else m) []
  if reqMethod = method ∧ urlSplit.length = pathSplit.length then (matched, binds)
  else (matched, [])

/-! ## Storage layer (`db.js`)

Each operation is hand-compiled with explicit exception propagation: a
primitive that throws is a `.error` value; JS `try`/`catch`/`finally` becomes
the corresponding case analysis. Each operation also returns a `Trace`
counting how many connections it opened and how many it closed, so that
release-on-every-path is expressible. The relational store itself is an
external collaborator: its behaviour (`World`) provides the outcome of
`createConnection` and of each query, the table contents for SELECTs and the
`affectedRows` count for mutations, with SQL `ORDER BY` / `WHERE` given their
standard meaning on the modelled table. Rows are projected to the columns the
claims mention (`id`, `position`). -/

/-- A fault thrown by the storage primitives. -/
inductive Fault where
  | connect : Fault
  | query : Fault
deriving DecidableEq, Repr

/-- A row of the `images` table, projected to the columns the claims are
about. -/
structure Row where
  id : ℤ
  position : ℤ
deriving DecidableEq, Repr

/-- Connections opened and closed during one operation. -/
structure Trace where
  opened : ℕ
  closed : ℕ
deriving DecidableEq, Repr

/-- Behaviour of the external store during one operation: whether
`creaConnessione` succeeds, whether queries succeed, the table contents, and
the `affectedRows` count a successful mutation reports. -/
structure World where
  connectOk : Bool
  queryOk : Bool
  table : List Row
  affectedRows : ℕ

/-- `position ASC, id DESC`: the SQL sort order of the full-list SELECT. -/
def imgBefore (a b : Row) : Prop :=
  a.position < b.position ∨ (a.position = b.position ∧ b.id ≤ a.id)

instance : DecidableRel imgBefore := fun a b => by
  unfold imgBefore; infer_instance

instance : IsTotal Row imgBefore where
  total a b := by
    rcases lt_trichotomy a.position b.position with h | h | h
    · exact Or.inl (Or.inl h)
    · rcases le_total b.id a.id with h' | h'
      · exact Or.inl (Or.inr ⟨h, h'⟩)
      · exact Or.inr (Or.inr ⟨h.symm, h'⟩)
    · exact Or.inr (Or.inl h)

instance : IsTrans Row imgBefore where
  trans a b c hab hbc := by
    rcases hab with h1 | ⟨h1, h1'⟩
    · rcases hbc with h2 | ⟨h2, _⟩
      · exact Or.inl (h1.trans h2)
      · exact Or.inl (h2 ▸ h1)
    · rcases hbc with h2 | ⟨h2, h2'⟩
      · exact Or.inl (h1 ▸ h2)
      · exact Or.inr ⟨h1.trans h2, h2'.trans h1'⟩

/-- Result set of `SELECT * FROM images ORDER BY position ASC, id DESC;`. -/
def orderImages (t : List Row) : List Row := List.insertionSort imgBefore t

/-- `creaConnessione()` (db.js lines 3-10): yields a connection handle
(modelled as `Unit`) or throws. -/
def creaConnessione (w : World) : Except Fault Unit :=
  if w.connectOk then .ok () else .error .connect

/-- `conn.query` on the full-list SELECT (db.js line 15). -/
def querySelectAll (w : World) : Except Fault (List Row) :=
  if w.queryOk then .ok (orderImages w.table) else .error .query

/-- `conn.query` on `SELECT * FROM images WHERE id = ?` (db.js lines 46-48). -/
def queryById (w : World) (id : ℤ) : Except Fault (List Row) :=
  if w.queryOk then .ok (w.table.filter (fun r => r.id = id)) else .error .query

/-- `conn.query`/`conn.execute` on a mutating statement: yields the result
object's `affectedRows`, or throws. The bound parameters do not influence the
modelled outcome but are threaded so the statements' bindings are explicit. -/
def queryMutate (w : World) (_ps : List JSValue) : Except Fault ℕ :=
  if w.queryOk then .ok w.affectedRows else .error .query

/-- `getImmagini()` (db.js lines 12-18). No `try`/`finally`: a throwing
primitive propagates, and a throw of `conn.query` skips `conn.close()`. -/
def getImmagini (w : World) : Except Fault (List Row) × Trace :=
  match creaConnessione w with
  | .error f => (.error f, ⟨0, 0⟩)
  | .ok _ =>
    match querySelectAll w with
    | .error f => (.error f, ⟨1, 0⟩)
    | .ok results => (.ok results, ⟨1, 1⟩)

/-- The INSERT parameter list of `salvaImmagine` (db.js line 29). -/
def salvaParams (immagine : Immagine) : List JSValue :=
  [immagine.image_url, immagine.description, immagine.rating,
   jsOr immagine.position (.num (.val 0))]

/-- `salvaImmagine(immagine)` (db.js lines 20-39): `try` around connect and
INSERT, `catch` returns `false`, `finally` closes the connection when it was
assigned. -/
def salvaImmagine (w : World) (immagine : Immagine) : Except Fault Bool × Trace :=
  match creaConnessione w with
  | .error _ => (.ok false, ⟨0, 0⟩)   -- catch; finally: conn is null, no close
  | .ok _ =>
    match queryMutate w (salvaParams immagine) with
    | .error _ => (.ok false, ⟨1, 1⟩) -- catch; finally closes
    | .ok affectedRows => (.ok (affectedRows > 0), ⟨1, 1⟩)

/-- `trovaImmagine(id)` (db.js lines 41-56): returns the first row or `null`;
`catch` returns `null`; `finally` closes when assigned. -/
def trovaImmagine (w : World) (id : ℤ) : Except Fault (Option Row) × Trace :=
  match creaConnessione w with
  | .error _ => (.ok none, ⟨0, 0⟩)
  | .ok _ =>
    match queryById w id with
    | .error _ => (.ok none, ⟨1, 1⟩)
    | .ok results =>
      match results with
      | r :: _ => (.ok (some r), ⟨1, 1⟩)
      | [] => (.ok none, ⟨1, 1⟩)

/-- The UPDATE parameter list of `modificaImmagine` (db.js line 66). -/
def modificaParams (id : ℤ) (immagine : Immagine) : List JSValue :=
  [immagine.image_url, immagine.description, immagine.rating,
   jsOr immagine.position (.num (.val 0)), .num (.val id)]

/-- `modificaImmagine(id, immagine)` (db.js lines 58-76). -/
def modificaImmagine (w : World) (id : ℤ) (immagine : Immagine) :
    Except Fault Bool × Trace :=
  match creaConnessione w with
  | .error _ => (.ok false, ⟨0, 0⟩)
  | .ok _ =>
    match queryMutate w (modificaParams id immagine) with
    | .error _ => (.ok false, ⟨1, 1⟩)
    | .ok affectedRows => (.ok (affectedRows > 0), ⟨1, 1⟩)

/-- `eliminaImmagine(id)` (db.js lines 78-95). -/
def eliminaImmagine (w : World) (id : ℤ) : Except Fault Bool × Trace :=
  match creaConnessione w with
  | .error _ => (.ok false, ⟨0, 0⟩)
  | .ok _ =>
    match queryMutate w [.num (.val id)] with
    | .error _ => (.ok false, ⟨1, 1⟩)
    | .ok affectedRows => (.ok (affectedRows > 0), ⟨1, 1⟩)

/-- The `for (const item of ordini)` loop of `aggiornaPosizioni` (db.js lines
105-107): each iteration issues an UPDATE, a throw stops the loop. -/
def runPosUpdates (w : World) : List (ℤ × JSValue) → Except Fault Unit
  | [] => .ok ()
  | item :: rest =>
    match queryMutate w [item.2, .num (.val item.1)] with
    | .error f => .error f
    | .ok _ => runPosUpdates w rest

/-- `aggiornaPosizioni(ordini)` (db.js lines 101-115). -/
def aggiornaPosizioni (w : World) (ordini : List (ℤ × JSValue)) :
    Except Fault Bool × Trace :=
  match creaConnessione w with
  | .error _ => (.ok false, ⟨0, 0⟩)
  | .ok _ =>
    match runPosUpdates w ordini with
    | .error _ => (.ok false, ⟨1, 1⟩)
    | .ok _ => (.ok true, ⟨1, 1⟩)

/-- Integer stored by the `position INT` column for a bound parameter (only
integral numeric parameters reach it in the embedded statements). -/
def storedInt : JSValue → ℤ
  | .num (.val q) => if q.den = 1 then q.num else 0
  | _ => 0

/-- Effect of `UPDATE images SET ... position = ? WHERE id = ?` on the
projected table, for the position parameter `posParam`. -/
def applyUpdate (t : List Row) (id : ℤ) (posParam : JSValue) : List Row :=
  t.map (fun r => if r.id = id then { r with position := storedInt posParam } else r)

/-! ## Request handler fragments (`index.js`)

`getBody` (lines 132-156) resolves the parsed JSON body, or the empty object
when `JSON.parse` throws; the JSON parser itself is an external routine, so
`getBody` is parameterised by it. The POST /images branch (lines 210-231) is
embedded as a function from the request body to the response. -/

/-- Outcome of `JSON.parse` on a body: the payload as the handler reads it,
or a parse error. -/
abbrev ParseOutcome := Except Unit Immagine

/-- `getBody()`'s `end` path: parse the concatenated body; on a parse error
resolve with `{}` instead (lines 141-147). -/
def getBody (parse : String → ParseOutcome) (body : String) : Immagine :=
  match parse body with
  | .ok v => v
  | .error _ => emptyImmagine

/-- Body of a response of the POST /images branch. -/
inductive RespBody where
  | errList (errori : List String) : RespBody
  | okTrue : RespBody
deriving DecidableEq, Repr

/-- An HTTP response: status code and JSON body. -/
structure Resp where
  status : ℕ
  body : RespBody
deriving DecidableEq, Repr

/-- The POST /images branch (lines 210-231): validate, 400 with the error
list on failure, otherwise save and answer 201 or 400. `none` is the case of
an exception escaping the handler (no response is written). -/
def postImages (w : World) (immagine : Immagine) : Option Resp :=
  let errori := validaImmagine immagine
  if errori.length > 0 then some ⟨400, .errList errori⟩
  else
    match (salvaImmagine w immagine).1 with
    | .error _ => none
    | .ok true => some ⟨201, .okTrue⟩
    | .ok false =>
        some ⟨400, .errList ["Errore nel salvataggio del database (verificare log backend)"]⟩

/-- Integer-in-range test the spec states for the rating: the coerced value is
an integer lying in the inclusive range [1,5] (`NaN` is neither). -/
def ratingValueOk : JSNum → Prop
  | .nan => False
  | .val q => q.den = 1 ∧ 1 ≤ q ∧ q ≤ 5

instance : DecidablePred ratingValueOk := fun n => by
  unfold ratingValueOk; cases n <;> infer_instance

/-- An `Except` outcome that did not throw. -/
def noThrow {α : Type} : Except Fault α → Bool
  | .ok _ => true
  | .error _ => false


/-! ## Theorems -/

lemma ne_u1_u2 : urlRequiredMsg ≠ urlInvalidMsg := by decide
lemma ne_u1_r1 : urlRequiredMsg ≠ ratingRequiredMsg := by decide
lemma ne_u1_r2 : urlRequiredMsg ≠ ratingRangeMsg := by decide
lemma ne_u1_d : urlRequiredMsg ≠ descriptionMsg := by decide
lemma ne_u2_r1 : urlInvalidMsg ≠ ratingRequiredMsg := by decide
lemma ne_u2_r2 : urlInvalidMsg ≠ ratingRangeMsg := by decide
lemma ne_u2_d : urlInvalidMsg ≠ descriptionMsg := by decide
lemma ne_r1_r2 : ratingRequiredMsg ≠ ratingRangeMsg := by decide
lemma ne_r1_d : ratingRequiredMsg ≠ descriptionMsg := by decide
lemma ne_r2_d : ratingRangeMsg ≠ descriptionMsg := by decide

lemma valida_decomp (im : Immagine) :
    validaImmagine im = urlErrors im ++ ratingErrors im ++ descriptionErrors im := by
  unfold validaImmagine urlErrors ratingErrors descriptionErrors
  split_ifs <;> simp_all <;> omega

lemma mem_valida (im : Immagine) (m : String) :
    m ∈ validaImmagine im ↔
      m ∈ urlErrors im ∨ m ∈ ratingErrors im ∨ m ∈ descriptionErrors im := by
  rw [valida_decomp]; simp

lemma ratingValueOk_iff (n : JSNum) :
    (!jsIsInteger n || jsLt n (.val 1) || jsGt n (.val 5)) = true ↔ ¬ratingValueOk n := by
  cases n with
  | nan => simp [jsIsInteger, jsLt, jsGt, ratingValueOk]
  | val q =>
    have hb : (!jsIsInteger (JSNum.val q) || jsLt (JSNum.val q) (.val 1) ||
        jsGt (JSNum.val q) (.val 5)) = true ↔ (¬ q.den = 1 ∨ q < 1 ∨ 5 < q) := by
      simp [jsIsInteger, jsLt, jsGt, or_assoc]
    rw [hb]
    unfold ratingValueOk
    constructor
    · rintro (h | h | h) ⟨a, b, c⟩
      exacts [h a, absurd b (not_le.mpr h), absurd c (not_le.mpr h)]
    · intro h
      by_cases a : q.den = 1
      · by_cases b : (1:ℚ) ≤ q
        · by_cases c : q ≤ 5
          · exact absurd ⟨a, b, c⟩ h
          · exact Or.inr (Or.inr (not_le.mp c))
        · exact Or.inr (Or.inl (not_le.mp b))
      · exact Or.inl a

lemma mem_urlErrors_cases (im : Immagine) (m : String) (h : m ∈ urlErrors im) :
    m = urlRequiredMsg ∨ m = urlInvalidMsg := by
  unfold urlErrors at h; split_ifs at h <;> simp_all

lemma mem_ratingErrors_cases (im : Immagine) (m : String) (h : m ∈ ratingErrors im) :
    m = ratingRequiredMsg ∨ m = ratingRangeMsg := by
  unfold ratingErrors at h; split_ifs at h <;> simp_all

lemma mem_descErrors_cases (im : Immagine) (m : String) (h : m ∈ descriptionErrors im) :
    m = descriptionMsg := by
  unfold descriptionErrors at h; split_ifs at h <;> simp_all

lemma urlRequired_in_urlErrors (im : Immagine) :
    urlRequiredMsg ∈ urlErrors im ↔
      (truthy im.image_url = false ∨ isString im.image_url = false) := by
  unfold urlErrors; split_ifs with h1 h2 <;> simp_all [ne_u1_u2]

lemma urlInvalid_in_urlErrors (im : Immagine) :
    urlInvalidMsg ∈ urlErrors im ↔
      (truthy im.image_url = true ∧ isString im.image_url = true ∧
       testHttpUrl (jsStr im.image_url) = false ∧
       testDataImageUrl (jsStr im.image_url) = false) := by
  unfold urlErrors; split_ifs with h1 h2 <;> simp_all [ne_u1_u2.symm]
  intro h2 h3
  rcases h1 with h1 | h1 <;> simp_all

lemma ratingRequired_in_ratingErrors (im : Immagine) :
    ratingRequiredMsg ∈ ratingErrors im ↔ (im.rating = .undef ∨ im.rating = .null) := by
  unfold ratingErrors; split_ifs with h1 h2 <;> simp_all [ne_r1_r2]

lemma ratingRange_in_ratingErrors (im : Immagine) :
    ratingRangeMsg ∈ ratingErrors im ↔
      (¬(im.rating = .undef ∨ im.rating = .null) ∧ ¬ratingValueOk (toNumber im.rating)) := by
  rw [← ratingValueOk_iff]
  unfold ratingErrors; split_ifs with h1 h2 <;> simp_all [ne_r1_r2.symm]

lemma desc_in_descErrors (im : Immagine) :
    descriptionMsg ∈ descriptionErrors im ↔
      (truthy im.description = true ∧ isString im.description = true ∧
       (jsStr im.description).length > 200) := by
  unfold descriptionErrors; split_ifs with h1 <;> simp_all

lemma ratingMsg_not_url (im : Immagine) (m : String)
    (hm : m = ratingRequiredMsg ∨ m = ratingRangeMsg) : m ∉ urlErrors im := by
  intro h
  rcases mem_urlErrors_cases im m h with h' | h' <;> rcases hm with hm | hm <;>
    subst hm <;> revert h' <;> decide

lemma urlMsg_not_rating (im : Immagine) (m : String)
    (hm : m = urlRequiredMsg ∨ m = urlInvalidMsg) : m ∉ ratingErrors im := by
  intro h
  rcases mem_ratingErrors_cases im m h with h' | h' <;> rcases hm with hm | hm <;>
    subst hm <;> revert h' <;> decide

lemma notDesc_not_desc (im : Immagine) (m : String) (hm : m ≠ descriptionMsg) :
    m ∉ descriptionErrors im := fun h => hm (mem_descErrors_cases im m h)

lemma desc_in_valida_iff (im : Immagine) :
    descriptionMsg ∈ validaImmagine im ↔
      (∃ s, im.description = JSValue.str s ∧ s.length > 200) := by
  have hcase : (truthy im.description = true ∧ isString im.description = true ∧
      (jsStr im.description).length > 200) ↔
      (∃ s, im.description = JSValue.str s ∧ s.length > 200) := by
    cases h : im.description <;> simp [truthy, isString, jsStr]
    rename_i s
    intro hlen he
    subst he
    simp at hlen
  rw [mem_valida]
  constructor
  · rintro (h | h | h)
    · rcases mem_urlErrors_cases im _ h with h' | h'
      · exact absurd h' ne_u1_d.symm
      · exact absurd h' ne_u2_d.symm
    · rcases mem_ratingErrors_cases im _ h with h' | h'
      · exact absurd h' ne_r1_d.symm
      · exact absurd h' ne_r2_d.symm
    · exact hcase.mp ((desc_in_descErrors im).mp h)
  · intro h
    exact Or.inr (Or.inr ((desc_in_descErrors im).mpr (hcase.mpr h)))

/-- Claim C5: the validator's rating rule: the "required" message is emitted
exactly when the rating is `undefined` or `null`; otherwise the range message
is emitted exactly when the value coerced by `Number` is not an integer in the
inclusive range [1,5]; the numeric string "3" satisfies the rule. -/
theorem validator_rating_rule (im : Immagine) :
    (ratingRequiredMsg ∈ validaImmagine im ↔ (im.rating = .undef ∨ im.rating = .null)) ∧
    (ratingRangeMsg ∈ validaImmagine im ↔
      (¬(im.rating = .undef ∨ im.rating = .null) ∧ ¬ratingValueOk (toNumber im.rating))) ∧
    ratingValueOk (toNumber (.str "3")) := by
  refine ⟨?_, ?_, by decide⟩
  · rw [mem_valida]
    constructor
    · rintro (h | h | h)
      · exact absurd h (ratingMsg_not_url im _ (Or.inl rfl))
      · exact (ratingRequired_in_ratingErrors im).mp h
      · exact absurd h (notDesc_not_desc im _ ne_r1_d)
    · intro h; exact Or.inr (Or.inl ((ratingRequired_in_ratingErrors im).mpr h))
  · rw [mem_valida]
    constructor
    · rintro (h | h | h)
      · exact absurd h (ratingMsg_not_url im _ (Or.inr rfl))
      · exact (ratingRange_in_ratingErrors im).mp h
      · exact absurd h (notDesc_not_desc im _ ne_r2_d)
    · intro h; exact Or.inr (Or.inl ((ratingRange_in_ratingErrors im).mpr h))

/-- Claim C6, counterexample: for the payload with `image_url` the empty
string — a present string value — the validator still emits the url
"required" message, though the claim allows it only for a missing or
non-string url. -/
theorem url_required_fires_on_empty_string :
    urlRequiredMsg ∈
      validaImmagine { image_url := JSValue.str "", rating := JSValue.num (.val 3) } ∧
    isString (JSValue.str "") = true ∧ JSValue.str "" ≠ JSValue.undef := by decide

/-- Claim C6, amended: the url "required" message is emitted exactly when
`image_url` is missing, not a string, or the empty string; otherwise the
"must be valid" message is emitted exactly when the string matches neither
`^https?://.+` nor `^data:image/.+`. -/
theorem validator_url_rule (im : Immagine) :
    (urlRequiredMsg ∈ validaImmagine im ↔
      (isString im.image_url = false ∨ im.image_url = .str "")) ∧
    (urlInvalidMsg ∈ validaImmagine im ↔
      (∃ s, im.image_url = .str s ∧ s ≠ "" ∧
        testHttpUrl s = false ∧ testDataImageUrl s = false)) := by
  constructor
  · have hcase : (truthy im.image_url = false ∨ isString im.image_url = false) ↔
        (isString im.image_url = false ∨ im.image_url = JSValue.str "") := by
      cases h : im.image_url <;> simp [truthy, isString]
    rw [mem_valida]
    constructor
    · rintro (h | h | h)
      · exact hcase.mp ((urlRequired_in_urlErrors im).mp h)
      · exact absurd h (urlMsg_not_rating im _ (Or.inl rfl))
      · exact absurd h (notDesc_not_desc im _ ne_u1_d)
    · intro h; exact Or.inl ((urlRequired_in_urlErrors im).mpr (hcase.mpr h))
  · have hcase : (truthy im.image_url = true ∧ isString im.image_url = true ∧
        testHttpUrl (jsStr im.image_url) = false ∧
        testDataImageUrl (jsStr im.image_url) = false) ↔
        (∃ s, im.image_url = JSValue.str s ∧ s ≠ "" ∧
          testHttpUrl s = false ∧ testDataImageUrl s = false) := by
      cases h : im.image_url <;> simp [truthy, isString, jsStr]
    rw [mem_valida]
    constructor
    · rintro (h | h | h)
      · exact hcase.mp ((urlInvalid_in_urlErrors im).mp h)
      · exact absurd h (urlMsg_not_rating im _ (Or.inr rfl))
      · exact absurd h (notDesc_not_desc im _ ne_u2_d)
    · intro h; exact Or.inl ((urlInvalid_in_urlErrors im).mpr (hcase.mpr h))

/-- Claim C7: the description message is emitted exactly when the description
is a string longer than 200 characters; a 200-character description passes and
an absent or empty description is always valid, whatever the other fields. -/
theorem validator_description_rule (im : Immagine) :
    (descriptionMsg ∈ validaImmagine im ↔
      (∃ s, im.description = JSValue.str s ∧ s.length > 200)) ∧
    (∀ im2 : Immagine, descriptionMsg ∉ validaImmagine
      { im2 with description := JSValue.str (String.mk (List.replicate 200 'a')) }) ∧
    (∀ im2 : Immagine, descriptionMsg ∉ validaImmagine
      { im2 with description := JSValue.undef }) ∧
    (∀ im2 : Immagine, descriptionMsg ∉ validaImmagine
      { im2 with description := JSValue.str "" }) := by
  refine ⟨desc_in_valida_iff im, ?_, ?_, ?_⟩
  · intro im2 h
    rcases (desc_in_valida_iff _).mp h with ⟨s, hs, hlen⟩
    have h200 : (String.mk (List.replicate 200 'a')).length = 200 := by
      show (List.replicate 200 'a').length = 200
      exact List.length_replicate 200 'a'
    injection hs with hs
    subst hs
    omega
  · intro im2 h
    rcases (desc_in_valida_iff _).mp h with ⟨s, hs, hlen⟩
    exact absurd hs (by simp)
  · intro im2 h
    rcases (desc_in_valida_iff _).mp h with ⟨s, hs, hlen⟩
    injection hs with hs
    subst hs
    simp at hlen

/-- Claim C8: the validator returns the concatenation of the url errors, the
rating error and the description error, in that order, and returns the empty
list exactly when every field rule is satisfied. -/
theorem validator_error_order (im : Immagine) :
    validaImmagine im = urlErrors im ++ ratingErrors im ++ descriptionErrors im ∧
    (validaImmagine im = [] ↔
      urlErrors im = [] ∧ ratingErrors im = [] ∧ descriptionErrors im = []) := by
  refine ⟨valida_decomp im, ?_⟩
  rw [valida_decomp im]
  simp [List.append_eq_nil, and_assoc]

lemma matchSegs_eq (ps : List String) : ∀ (us : List String) (acc : List (String × String)),
    us.length = ps.length →
    matchSegs us ps acc =
      ((ps.zip us).all (fun pu => startsColon pu.1 || pu.1 == pu.2),
       ((ps.zip us).takeWhile (fun pu => startsColon pu.1 || pu.1 == pu.2)).foldl
         (fun m pu => if startsColon pu.1 then objSet m (substrFrom1 pu.1) pu.2 else m) acc) := by
  induction ps with
  | nil =>
    intro us acc h
    cases us with
    | nil => simp [matchSegs]
    | cons u us => simp at h
  | cons p ps ih =>
    intro us acc h
    cases us with
    | nil => simp at h
    | cons u us =>
      simp only [List.length_cons, Nat.add_right_cancel_iff] at h
      by_cases hc : startsColon p = true
      · simp only [matchSegs, hc, if_true, List.zip_cons_cons, List.all_cons,
          List.takeWhile_cons, Bool.true_or, List.foldl_cons, if_pos]
        rw [ih us _ h]
        simp
      · have h1 : ¬ (startsColon p = true) := by simp [hc]
        by_cases he : p = u
        · subst he
          have hb : (p == p) = true := beq_self_eq_true p
          simp only [matchSegs, List.zip_cons_cons, List.all_cons, List.takeWhile_cons, hb,
            Bool.or_true, List.foldl_cons]
          rw [if_neg h1, if_neg (fun hh : p ≠ p => hh rfl), ih us acc h]
          simp [hc]
        · have hb : (p == u) = false := beq_eq_false_iff_ne.mpr he
          simp only [matchSegs, List.zip_cons_cons, List.all_cons, List.takeWhile_cons, hb,
            hc, Bool.or_false, Bool.false_and]
          simp [he]

/-- Claim C1: `reqMatch` agrees with the spec's reference matching definition
on every method and path, and on the concrete examples: `/images/42` against
`/images/:id` matches with `params.id = "42"`, while `/images` does not match
`/images/42`. -/
theorem router_reqMatch_correct (reqMethod reqUrl method path : String) :
    reqMatch reqMethod reqUrl method path = routeSpecMatch reqMethod reqUrl method path ∧
    reqMatch "GET" "/images/42" "GET" "/images/:id" = (true, [("id", "42")]) ∧
    (reqMatch "GET" "/images/42" "GET" "/images").1 = false := by
  refine ⟨?_, by decide, by decide⟩
  by_cases hm : reqMethod = method
  · subst hm
    by_cases hl : (jsSplitSlash reqUrl).length = (jsSplitSlash path).length
    · simp only [reqMatch, routeSpecMatch]
      rw [matchSegs_eq (jsSplitSlash path) (jsSplitSlash reqUrl) [] hl]
      simp [hl]
    · have h2 : ((jsSplitSlash reqUrl).length == (jsSplitSlash path).length) = false := by
        simp [hl]
      simp only [reqMatch, routeSpecMatch]
      simp [hl, h2]
  · have hb : (reqMethod == method) = false := beq_eq_false_iff_ne.mpr hm
    simp only [reqMatch, routeSpecMatch]
    simp [hm, hb]

lemma getImmagini_eq (w : World) :
    getImmagini w =
      if w.connectOk then
        (if w.queryOk then (.ok (orderImages w.table), ⟨1, 1⟩)
         else (.error .query, ⟨1, 0⟩))
      else (.error .connect, ⟨0, 0⟩) := by
  obtain ⟨c, q, t, a⟩ := w
  cases c <;> cases q <;> rfl

lemma salvaImmagine_eq (w : World) (im : Immagine) :
    salvaImmagine w im =
      if w.connectOk then
        (if w.queryOk then (.ok (w.affectedRows > 0), ⟨1, 1⟩) else (.ok false, ⟨1, 1⟩))
      else (.ok false, ⟨0, 0⟩) := by
  obtain ⟨c, q, t, a⟩ := w
  cases c <;> cases q <;> rfl

lemma modificaImmagine_eq (w : World) (id : ℤ) (im : Immagine) :
    modificaImmagine w id im =
      if w.connectOk then
        (if w.queryOk then (.ok (w.affectedRows > 0), ⟨1, 1⟩) else (.ok false, ⟨1, 1⟩))
      else (.ok false, ⟨0, 0⟩) := by
  obtain ⟨c, q, t, a⟩ := w
  cases c <;> cases q <;> rfl

lemma eliminaImmagine_eq (w : World) (id : ℤ) :
    eliminaImmagine w id =
      if w.connectOk then
        (if w.queryOk then (.ok (w.affectedRows > 0), ⟨1, 1⟩) else (.ok false, ⟨1, 1⟩))
      else (.ok false, ⟨0, 0⟩) := by
  obtain ⟨c, q, t, a⟩ := w
  cases c <;> cases q <;> rfl

lemma trovaImmagine_shape (w : World) (id : ℤ) :
    noThrow (trovaImmagine w id).1 = true ∧
    (trovaImmagine w id).2 = if w.connectOk then (⟨1, 1⟩ : Trace) else ⟨0, 0⟩ := by
  obtain ⟨c, q, t, a⟩ := w
  cases c <;> cases q <;>
    first
      | exact ⟨rfl, rfl⟩
      | · cases h : t.filter (fun r => r.id = id) <;>
            simp [trovaImmagine, creaConnessione, queryById, noThrow, h]

lemma runPosUpdates_eq (w : World) (os : List (ℤ × JSValue)) :
    runPosUpdates w os = if w.queryOk = true ∨ os = [] then .ok () else .error .query := by
  induction os with
  | nil => cases hq : w.queryOk <;> simp [runPosUpdates]
  | cons o os ih => cases hq : w.queryOk <;> simp [runPosUpdates, queryMutate, hq, ih]

lemma aggiornaPosizioni_eq (w : World) (os : List (ℤ × JSValue)) :
    aggiornaPosizioni w os =
      if w.connectOk then
        (if w.queryOk = true ∨ os = [] then (.ok true, ⟨1, 1⟩) else (.ok false, ⟨1, 1⟩))
      else (.ok false, ⟨0, 0⟩) := by
  obtain ⟨c, q, t, a⟩ := w
  cases c <;> simp only [aggiornaPosizioni, creaConnessione, runPosUpdates_eq]
  · rfl
  · by_cases hq : (q = true) ∨ os = [] <;> simp [hq]

/-- Claim C2, counterexample: with a working connection and a failing query,
the list operation `getImmagini` exits with the raw storage fault — it is not
caught and converted to a boolean or empty result. -/
theorem getImmagini_propagates_fault :
    (getImmagini ⟨true, false, [], 0⟩).1 = .error .query ∧
    noThrow (getImmagini ⟨true, false, [], 0⟩).1 = false := ⟨rfl, rfl⟩

/-- Claim C2, amended: the create, get-by-id, update, delete and reorder
operations catch every storage fault inside the boundary and return a plain
value; `getImmagini`, by contrast, completes without throwing exactly when
both the connection and the query succeed. -/
theorem storage_fault_boundary (w : World) (im : Immagine) (id : ℤ)
    (ords : List (ℤ × JSValue)) :
    noThrow (salvaImmagine w im).1 = true ∧
    noThrow (trovaImmagine w id).1 = true ∧
    noThrow (modificaImmagine w id im).1 = true ∧
    noThrow (eliminaImmagine w id).1 = true ∧
    noThrow (aggiornaPosizioni w ords).1 = true ∧
    (noThrow (getImmagini w).1 = true ↔ (w.connectOk = true ∧ w.queryOk = true)) := by
  refine ⟨?_, (trovaImmagine_shape w id).1, ?_, ?_, ?_, ?_⟩
  · rw [salvaImmagine_eq]; split_ifs <;> rfl
  · rw [modificaImmagine_eq]; split_ifs <;> rfl
  · rw [eliminaImmagine_eq]; split_ifs <;> rfl
  · rw [aggiornaPosizioni_eq]; split_ifs <;> rfl
  · rw [getImmagini_eq]
    cases hc : w.connectOk <;> cases hq : w.queryOk <;> simp [noThrow]

/-- Claim C3, counterexample: with a working connection and a failing query,
`getImmagini` opens a connection and never closes it — the release is skipped
on the exception path (while on the success path it is closed). -/
theorem getImmagini_leaks_connection :
    (getImmagini ⟨true, false, [], 0⟩).2 = ⟨1, 0⟩ ∧
    (getImmagini ⟨true, true, [], 0⟩).2 = ⟨1, 1⟩ := ⟨rfl, rfl⟩

/-- Claim C3, amended: `salvaImmagine`, `trovaImmagine`, `modificaImmagine`,
`eliminaImmagine` and `aggiornaPosizioni` close every connection they open on
every exit path; `getImmagini` balances its opens and closes exactly when its
query does not fail after a successful connection. -/
theorem storage_connection_release (w : World) (im : Immagine) (id : ℤ)
    (ords : List (ℤ × JSValue)) :
    (salvaImmagine w im).2.closed = (salvaImmagine w im).2.opened ∧
    (trovaImmagine w id).2.closed = (trovaImmagine w id).2.opened ∧
    (modificaImmagine w id im).2.closed = (modificaImmagine w id im).2.opened ∧
    (eliminaImmagine w id).2.closed = (eliminaImmagine w id).2.opened ∧
    (aggiornaPosizioni w ords).2.closed = (aggiornaPosizioni w ords).2.opened ∧
    ((getImmagini w).2.closed = (getImmagini w).2.opened ↔
      (w.connectOk = true → w.queryOk = true)) := by
  refine ⟨?_, ?_, ?_, ?_, ?_, ?_⟩
  · rw [salvaImmagine_eq]; split_ifs <;> rfl
  · rw [(trovaImmagine_shape w id).2]; split_ifs <;> rfl
  · rw [modificaImmagine_eq]; split_ifs <;> rfl
  · rw [eliminaImmagine_eq]; split_ifs <;> rfl
  · rw [aggiornaPosizioni_eq]; split_ifs <;> rfl
  · rw [getImmagini_eq]
    cases hc : w.connectOk <;> cases hq : w.queryOk <;> simp

/-- Claim C4: `getBody` resolves to the empty object whenever the body does
not parse as JSON, so a POST /images with a malformed body produces exactly
the same 400 response, listing the missing-url and missing-rating errors, as a
POST with the empty object payload. -/
theorem malformed_body_as_empty_object (parse : String → ParseOutcome)
    (body : String) (w : World) (h : parse body = .error ()) :
    getBody parse body = emptyImmagine ∧
    postImages w (getBody parse body) = postImages w emptyImmagine ∧
    postImages w emptyImmagine =
      some ⟨400, .errList [urlRequiredMsg, ratingRequiredMsg]⟩ := by
  have hg : getBody parse body = emptyImmagine := by unfold getBody; rw [h]
  exact ⟨hg, by rw [hg], rfl⟩

/-- Witness for C4 at a concrete failing parse and world. -/
theorem malformed_body_as_empty_object_witness :
    (fun _ : String => (Except.error () : ParseOutcome)) "not json" = Except.error () ∧
    postImages ⟨true, true, [], 1⟩ (getBody (fun _ => Except.error ()) "not json") =
      some ⟨400, .errList [urlRequiredMsg, ratingRequiredMsg]⟩ := by
  have h := malformed_body_as_empty_object (fun _ => Except.error ()) "not json"
    ⟨true, true, [], 1⟩ rfl
  exact ⟨rfl, by rw [h.2.1, h.2.2]⟩

/-- Claim C9: the full-list read returns the table ordered by position
ascending with id descending as tie-break, and on the concrete records
(id=10,pos=2), (id=20,pos=1), (id=30,pos=1) the order is id 30, 20, 10. -/
theorem list_read_sorted (w : World) (h1 : w.connectOk = true)
    (h2 : w.queryOk = true) :
    (getImmagini w).1 = .ok (orderImages w.table) ∧
    List.Sorted imgBefore (orderImages w.table) ∧
    orderImages [⟨10, 2⟩, ⟨20, 1⟩, ⟨30, 1⟩] = [⟨30, 1⟩, ⟨20, 1⟩, ⟨10, 2⟩] := by
  refine ⟨?_, List.sorted_insertionSort imgBefore w.table, by decide⟩
  rw [getImmagini_eq, if_pos h1, if_pos h2]

/-- Witness for C9 at a concrete world holding the three records. -/
theorem list_read_sorted_witness :
    (getImmagini ⟨true, true, [⟨10, 2⟩, ⟨20, 1⟩, ⟨30, 1⟩], 0⟩).1 =
      .ok [⟨30, 1⟩, ⟨20, 1⟩, ⟨10, 2⟩] := by
  have h := list_read_sorted ⟨true, true, [⟨10, 2⟩, ⟨20, 1⟩, ⟨30, 1⟩], 0⟩ rfl rfl
  rw [h.1]
  rw [show orderImages [⟨10, 2⟩, ⟨20, 1⟩, ⟨30, 1⟩] = [⟨30, 1⟩, ⟨20, 1⟩, ⟨10, 2⟩] from h.2.2]

/-- Claim C10: whenever the update payload's position is absent or otherwise
falsy (undefined, null, false, 0, the empty string), `modificaImmagine` binds
the number 0 as the position parameter of its UPDATE, so the matching stored
record's position becomes 0. -/
theorem update_position_falsy_default (id : ℤ) (im : Immagine)
    (h : truthy im.position = false) :
    jsOr im.position (.num (.val 0)) = .num (.val 0) ∧
    modificaParams id im =
      [im.image_url, im.description, im.rating, .num (.val 0), .num (.val id)] ∧
    (∀ t : List Row, ∀ r ∈ applyUpdate t id (jsOr im.position (.num (.val 0))),
      r.id = id → r.position = 0) ∧
    truthy JSValue.undef = false ∧ truthy JSValue.null = false ∧
    truthy (JSValue.bool false) = false ∧ truthy (JSValue.num (.val 0)) = false ∧
    truthy (JSValue.str "") = false := by
  have hor : jsOr im.position (.num (.val 0)) = .num (.val 0) := by
    unfold jsOr; simp [h]
  refine ⟨hor, ?_, ?_, rfl, rfl, rfl, by decide, by decide⟩
  · unfold modificaParams; rw [hor]
  · intro t r hr hid
    rw [hor] at hr
    unfold applyUpdate at hr
    rcases List.mem_map.mp hr with ⟨r0, hr0, heq⟩
    by_cases h0 : r0.id = id
    · rw [if_pos h0] at heq
      rw [← heq]
      show storedInt (.num (.val 0)) = 0
      decide
    · rw [if_neg h0] at heq
      rw [← heq] at hid
      exact absurd hid h0

/-- Witness for C10 at a concrete id and a payload omitting the position. -/
theorem update_position_falsy_default_witness :
    truthy JSValue.undef = false ∧
    modificaParams 7 { position := JSValue.undef } =
      [JSValue.undef, JSValue.undef, JSValue.undef, .num (.val 0), .num (.val 7)] :=
  ⟨rfl, (update_position_falsy_default 7 { position := JSValue.undef } rfl).2.1⟩

end SpaImages
